import Mathlib

set_option maxHeartbeats 1000000

/-!
Verification development for the kiosk media player in `src/run.py`.

The development shallowly embeds, in Lean, the parts of the program the
specification talks about:

* the A/V-sync decision and frame-delivery loop of `VideoThread.run`,
* the IPC server's per-connection handling (`IPCServerThread.run`),
* the `AdPlayerWindow` playback controller (state, handlers, fade
  transitions, thread lifecycle) as an event-driven state machine, and
* the pure scaling computations of `display_image` / `update_frame`.

Machine reals of the Python source (`time` values, timestamps, opacity,
scale factors) are modelled as exact rationals; Python `int()` is modelled
as truncation toward zero.  External collaborators (file system, image
decoder, screen geometry, `json.loads`) are modelled at their interface
boundary: the file system and decoder as oracles in an `Env` record, and
the JSON parser as an executable parser for the protocol's message
language.
-/

namespace AdPlayer

/-- Python `int()` applied to a rational: truncation toward zero. -/
def pyInt (q : ℚ) : ℤ := if 0 ≤ q then ⌊q⌋ else ⌈q⌉

/-! ### Frame Producer: the A/V sync decision (`VideoThread.run`, src/run.py 105-119)

Per loop iteration, after a frame has been emitted, the code decides how to
wait before the next `get_frame` pull:

```python
if audio_pts > 0 and pts > 0:
    delay = pts - audio_pts
    if delay > 0.001:
        sleep_time = min(delay, 0.1)
        time.sleep(sleep_time)
    elif delay < -0.05:
        continue
else:
    time.sleep(0.001)
```

Note that when both timestamps are positive and `-0.05 <= delay <= 0.001`
neither branch fires and the loop proceeds with no sleep at all; the 1 ms
sleep is taken only in the `else` arm (no audio reference). -/

inductive SyncAct
  | sleepSync (t : ℚ)
  | skipNoWait
  | passNoSleep
  | minimalSleep
  deriving DecidableEq

/-- The sync decision of one `VideoThread.run` iteration, from the code above. -/
def avSyncAction (pts audio_pts : ℚ) : SyncAct :=
  if 0 < audio_pts ∧ 0 < pts then
    let delay := pts - audio_pts
    if 1/1000 < delay then SyncAct.sleepSync (min delay (1/10))
    else if delay < -(1/20) then SyncAct.skipNoWait
    else SyncAct.passNoSleep
  else SyncAct.minimalSleep

/-- How long the chosen sync action sleeps before the next frame pull. -/
def sleepOf : SyncAct → ℚ
  | SyncAct.sleepSync t => t
  | SyncAct.minimalSleep => 1/1000
  | _ => 0

/-! ### Frame Producer: the playback loop (`VideoThread.run`, src/run.py 58-121)

The loop is driven by what the decode session returns at each iteration:
`get_frame()` yields end-of-file, "paused", no frame ready, a frame whose
image is `None`, or an actual frame with a presentation timestamp.  For a
real frame the code reads the audio clock (`get_pts`), converts the image
(which may fail), and on success records it as the last frame and emits it
before the sync decision runs.  We script these externally observed
outcomes as a list of `LoopIn` and compute the trace of emissions and
sleeps the loop performs. -/

structure PollFrame where
  fid : Nat
  pts : ℚ
  audio_pts : ℚ
  convOk : Bool
  deriving DecidableEq

inductive Poll
  | eofP
  | pausedP
  | notReady
  | imgNone (pts : ℚ)
  | frameP (f : PollFrame)
  deriving DecidableEq

structure LoopIn where
  elapsed : ℚ
  poll : Poll
  deriving DecidableEq

inductive TrEv
  | emit (fid : Nat)
  | sleepEv (t : ℚ)
  deriving DecidableEq

/-- One run of the `VideoThread.run` main loop over a script of decode-session
outcomes.  Returns the trace of frame emissions and sleeps, together with the
`last_frame` value held when the loop exits (emitted as the
`playback_finished` payload). -/
def runLoop (duration : ℚ) (last_frame : Option Nat) :
    List LoopIn → List TrEv × Option Nat
  | [] => ([], last_frame)
  | i :: rest =>
    if 0 < duration ∧ duration ≤ i.elapsed then ([], last_frame)
    else
      match i.poll with
      | Poll.eofP => ([], last_frame)
      | Poll.pausedP =>
        let r := runLoop duration last_frame rest
        (TrEv.sleepEv (1/100) :: r.1, r.2)
      | Poll.notReady =>
        let r := runLoop duration last_frame rest
        (TrEv.sleepEv (1/500) :: r.1, r.2)
      | Poll.imgNone _ => runLoop duration last_frame rest
      | Poll.frameP f =>
        if f.convOk then
          let r :=
            match avSyncAction f.pts f.audio_pts with
            | SyncAct.sleepSync t =>
              let r0 := runLoop duration (some f.fid) rest
              (TrEv.sleepEv t :: r0.1, r0.2)
            | SyncAct.minimalSleep =>
              let r0 := runLoop duration (some f.fid) rest
              (TrEv.sleepEv (1/1000) :: r0.1, r0.2)
            | _ => runLoop duration (some f.fid) rest
          (TrEv.emit f.fid :: r.1, r.2)
        else runLoop duration last_frame rest

/-- The frames of a script that the loop actually decodes and successfully
converts before it terminates (duration cap or end-of-file). -/
def consumedFrames (duration : ℚ) : List LoopIn → List PollFrame
  | [] => []
  | i :: rest =>
    if 0 < duration ∧ duration ≤ i.elapsed then []
    else
      match i.poll with
      | Poll.eofP => []
      | Poll.frameP f =>
        if f.convOk then f :: consumedFrames duration rest
        else consumedFrames duration rest
      | _ => consumedFrames duration rest

/-- The frame ids emitted along a trace, in order. -/
def emitsOf (tr : List TrEv) : List Nat :=
  tr.filterMap (fun e => match e with | TrEv.emit n => some n | _ => none)

/-- The synthetic frame stream of property P6: presentation timestamps
0,1,2,3 seconds, audio clock already at 3.1 when each frame is polled. -/
def p6Script : List LoopIn :=
  [⟨0, Poll.frameP ⟨0, 0, 31/10, true⟩⟩,
   ⟨0, Poll.frameP ⟨1, 1, 31/10, true⟩⟩,
   ⟨0, Poll.frameP ⟨2, 2, 31/10, true⟩⟩,
   ⟨0, Poll.frameP ⟨3, 3, 31/10, true⟩⟩]

lemma emitsOf_cons_emit (n : Nat) (tr : List TrEv) :
    emitsOf (TrEv.emit n :: tr) = n :: emitsOf tr := by
  simp [emitsOf]

lemma emitsOf_cons_sleep (t : ℚ) (tr : List TrEv) :
    emitsOf (TrEv.sleepEv t :: tr) = emitsOf tr := by
  simp [emitsOf]

/-- Emission trace of the playback loop: exactly the successfully converted
frames, in decode order, independent of the `last_frame` accumulator. -/
lemma runLoop_emits (duration : ℚ) (script : List LoopIn) :
    ∀ last_frame : Option Nat,
      emitsOf (runLoop duration last_frame script).1
        = (consumedFrames duration script).map PollFrame.fid := by
  induction script with
  | nil => intro last_frame; simp [runLoop, consumedFrames, emitsOf]
  | cons i rest ih =>
    intro last_frame
    by_cases hdur : 0 < duration ∧ duration ≤ i.elapsed
    · simp [runLoop, consumedFrames, hdur, emitsOf]
    · cases hp : i.poll with
      | eofP => simp [runLoop, consumedFrames, hdur, hp, emitsOf]
      | pausedP => simp [runLoop, consumedFrames, hdur, hp, emitsOf_cons_sleep, ih]
      | notReady => simp [runLoop, consumedFrames, hdur, hp, emitsOf_cons_sleep, ih]
      | imgNone pts => simp [runLoop, consumedFrames, hdur, hp, ih]
      | frameP f =>
        by_cases hc : f.convOk
        · cases hs : avSyncAction f.pts f.audio_pts <;>
            simp [runLoop, consumedFrames, hdur, hp, hc, hs,
                  emitsOf_cons_emit, emitsOf_cons_sleep, ih]
        · simp [runLoop, consumedFrames, hdur, hp, hc, ih]

/-! ### Claims C3 and C8 -/

/-- C3 counterexample: with both timestamps positive and equal (delay = 0,
which lies in the claim's "every other case"), the loop performs no sleep at
all — not the claimed ~1 ms sleep.  The 1 ms sleep is reserved for the
no-audio-reference arm. -/
theorem C3_counterexample :
    avSyncAction 1 1 = SyncAct.passNoSleep
      ∧ sleepOf (avSyncAction 1 1) = 0
      ∧ (0 : ℚ) ≠ 1/1000 := by
  have e : avSyncAction 1 1 = SyncAct.passNoSleep := by norm_num [avSyncAction]
  exact ⟨e, by rw [e]; rfl, by norm_num⟩

/-- C3 (amended): per iteration, with `delay = video_pts - audio_pts` when
both timestamps are positive: if `delay > 1ms` the producer sleeps
`min(delay, 100ms)`; if `delay < -50ms` it immediately fetches the next frame
with no wait; if both are positive and `-50ms ≤ delay ≤ 1ms` it proceeds
immediately with no sleep at all; only when no audio reference is available
(either timestamp non-positive) does it sleep the fixed ~1ms interval. -/
theorem C3_sync_policy (pts audio_pts : ℚ) :
    (0 < audio_pts → 0 < pts → 1/1000 < pts - audio_pts →
      avSyncAction pts audio_pts = SyncAct.sleepSync (min (pts - audio_pts) (1/10)))
  ∧ (0 < audio_pts → 0 < pts → pts - audio_pts < -(1/20) →
      avSyncAction pts audio_pts = SyncAct.skipNoWait
        ∧ sleepOf (avSyncAction pts audio_pts) = 0)
  ∧ (0 < audio_pts → 0 < pts → -(1/20) ≤ pts - audio_pts → pts - audio_pts ≤ 1/1000 →
      avSyncAction pts audio_pts = SyncAct.passNoSleep
        ∧ sleepOf (avSyncAction pts audio_pts) = 0)
  ∧ (¬ (0 < audio_pts ∧ 0 < pts) →
      avSyncAction pts audio_pts = SyncAct.minimalSleep
        ∧ sleepOf (avSyncAction pts audio_pts) = 1/1000) := by
  refine ⟨?_, ?_, ?_, ?_⟩
  · intro ha hp hd
    unfold avSyncAction
    rw [if_pos (And.intro ha hp)]
    simp only []
    rw [if_pos hd]
  · intro ha hp hd
    have h1 : ¬ (1/1000 < pts - audio_pts) := by linarith
    have e : avSyncAction pts audio_pts = SyncAct.skipNoWait := by
      unfold avSyncAction
      rw [if_pos (And.intro ha hp)]
      simp only []
      rw [if_neg h1, if_pos hd]
    exact ⟨e, by rw [e]; rfl⟩
  · intro ha hp hd1 hd2
    have h1 : ¬ (1/1000 < pts - audio_pts) := by linarith
    have h2 : ¬ (pts - audio_pts < -(1/20)) := by linarith
    have e : avSyncAction pts audio_pts = SyncAct.passNoSleep := by
      unfold avSyncAction
      rw [if_pos (And.intro ha hp)]
      simp only []
      rw [if_neg h1, if_neg h2]
    exact ⟨e, by rw [e]; rfl⟩
  · intro h
    have e : avSyncAction pts audio_pts = SyncAct.minimalSleep := by
      unfold avSyncAction
      rw [if_neg h]
    exact ⟨e, by rw [e]; rfl⟩

/-- Witness for C3_sync_policy at concrete inputs: pts = 2, audio = 1 gives
delay = 1s > 1ms, so the producer sleeps min(1, 0.1) = 0.1s; pts = 1,
audio = 2 gives delay = -1s < -50ms, so it skips the wait. -/
theorem C3_sync_policy_witness :
    avSyncAction 2 1 = SyncAct.sleepSync (min ((2 : ℚ) - 1) (1/10))
      ∧ avSyncAction 1 2 = SyncAct.skipNoWait := by
  constructor
  · exact (C3_sync_policy 2 1).1 (by norm_num) (by norm_num) (by norm_num)
  · exact ((C3_sync_policy 1 2).2.1 (by norm_num) (by norm_num) (by norm_num)).1

/-- C8: the Frame Producer emits every decoded and successfully converted
frame exactly once, in decode order, and never retracts an emitted frame
(there is no retraction in the loop; the emission trace is exactly the
converted-frame list).  On the P6 synthetic stream (pts 0,1,2,3 with the
audio clock at 3.1) frames 0-3 are each emitted exactly once, in order: the
lagging frames 1-3 (delay < -50ms) back-to-back with no sleep between them,
while frame 0 (pts = 0, so no valid sync reference) is followed only by the
fixed minimal 1ms sleep. -/
theorem C8_emit_exact_order :
    (∀ (duration : ℚ) (last_frame : Option Nat) (script : List LoopIn),
      emitsOf (runLoop duration last_frame script).1
        = (consumedFrames duration script).map PollFrame.fid)
  ∧ (runLoop 0 none p6Script).1
      = [TrEv.emit 0, TrEv.sleepEv (1/1000), TrEv.emit 1, TrEv.emit 2, TrEv.emit 3] := by
  constructor
  · intro duration last_frame script
    exact runLoop_emits duration script last_frame
  · have e0 : avSyncAction 0 (31/10) = SyncAct.minimalSleep := by
      norm_num [avSyncAction]
    have e1 : avSyncAction 1 (31/10) = SyncAct.skipNoWait := by
      norm_num [avSyncAction]
    have e2 : avSyncAction 2 (31/10) = SyncAct.skipNoWait := by
      norm_num [avSyncAction]
    have e3 : avSyncAction 3 (31/10) = SyncAct.skipNoWait := by
      norm_num [avSyncAction]
    simp [runLoop, p6Script, e0, e1, e2, e3]

/-! ### JSON values and the command-channel parser

`IPCServerThread.run` decodes each connection's bytes with `json.loads` and
either emits the decoded value and replies "OK", or replies "ERROR" on a
`JSONDecodeError`.  `json.loads` itself is an external collaborator (the
Python standard library); we model it at the interface boundary with an
executable parser `jsonLoads` for the protocol's message language: JSON
objects, arrays, strings without escape sequences, integers, `true`,
`false` and `null` — the sublanguage in which every protocol message and
every input used in the theorems below lies.  On this sublanguage the model
agrees with `json.loads`; in particular the empty string and plain
non-JSON words are rejected. -/

inductive JVal
  | str (s : String)
  | num (n : ℤ)
  | boolean (b : Bool)
  | nullV
  | arr (l : List JVal)
  | obj (l : List (String × JVal))

/-- Python `dict.get` on the dict `json.loads` builds from an object's
members: duplicate keys collapse with the last binding winning, so lookup
returns the last binding of the key, if any. -/
def jget (fields : List (String × JVal)) (key : String) : Option JVal :=
  match fields with
  | [] => none
  | (k, v) :: rest =>
    match jget rest key with
    | some r => some r
    | none => if k = key then some v else none

/-- On a duplicate-key object the last binding wins, exactly as in the dict
`json.loads` builds (`json.loads` of a duplicate-key object keeps the last
value). -/
lemma jget_duplicate_last :
    jget [("command", JVal.str ("NOPE")), ("command", JVal.str ("STOP"))] ("command")
      = some (JVal.str ("STOP")) := rfl

def quoteC : Char := Char.ofNat 34
def lbraceC : Char := Char.ofNat 123
def rbraceC : Char := Char.ofNat 125
def lbrackC : Char := Char.ofNat 91
def rbrackC : Char := Char.ofNat 93
def backslashC : Char := Char.ofNat 92

def isWsC (c : Char) : Bool := c = ' ' || c = '\t' || c = '\n' || c = '\r'

def jskip : List Char → List Char
  | [] => []
  | c :: cs => if isWsC c then jskip cs else c :: cs

/-- Parse a JSON string body (after the opening quote) up to the closing
quote; escape sequences are outside the modelled sublanguage. -/
def jstring : List Char → Option (List Char × List Char)
  | [] => none
  | c :: cs =>
    if c = quoteC then some ([], cs)
    else if c = backslashC then none
    else (jstring cs).map (fun r => (c :: r.1, r.2))

def jdigits : List Char → List Char × List Char
  | [] => ([], [])
  | c :: cs =>
    if c.isDigit then
      let r := jdigits cs
      (c :: r.1, r.2)
    else ([], c :: cs)

def digitsVal (ds : List Char) : ℤ :=
  ds.foldl (fun acc c => acc * 10 + (c.toNat - 48 : ℤ)) 0

/-- Parse an integer numeral, with optional leading minus sign. -/
def jint (cs : List Char) : Option (ℤ × List Char) :=
  match cs with
  | [] => none
  | c :: rest =>
    if c = '-' then
      match jdigits rest with
      | ([], _) => none
      | (ds, r) => some (-(digitsVal ds), r)
    else
      match jdigits cs with
      | ([], _) => none
      | (ds, r) => some (digitsVal ds, r)

mutual

/-- Parse one JSON value (fuel-bounded recursion). -/
def jval (fuel : Nat) (cs : List Char) : Option (JVal × List Char) :=
  match fuel with
  | 0 => none
  | fuel + 1 =>
    match jskip cs with
    | [] => none
    | c :: rest =>
      if c = quoteC then
        (jstring rest).map (fun r => (JVal.str (String.mk r.1), r.2))
      else if c = lbraceC then
        match jskip rest with
        | c2 :: rest2 =>
          if c2 = rbraceC then some (JVal.obj [], rest2)
          else jmembers fuel [] (c2 :: rest2)
        | [] => none
      else if c = lbrackC then
        match jskip rest with
        | c2 :: rest2 =>
          if c2 = rbrackC then some (JVal.arr [], rest2)
          else jitems fuel [] (c2 :: rest2)
        | [] => none
      else if c = 't' then
        match rest with
        | 'r' :: 'u' :: 'e' :: r => some (JVal.boolean true, r)
        | _ => none
      else if c = 'f' then
        match rest with
        | 'a' :: 'l' :: 's' :: 'e' :: r => some (JVal.boolean false, r)
        | _ => none
      else if c = 'n' then
        match rest with
        | 'u' :: 'l' :: 'l' :: r => some (JVal.nullV, r)
        | _ => none
      else
        (jint (c :: rest)).map (fun r => (JVal.num r.1, r.2))

/-- Parse the members of a JSON object after the opening brace. -/
def jmembers (fuel : Nat) (acc : List (String × JVal)) (cs : List Char) :
    Option (JVal × List Char) :=
  match fuel with
  | 0 => none
  | fuel + 1 =>
    match jskip cs with
    | [] => none
    | c :: rest =>
      if c = quoteC then
        match jstring rest with
        | none => none
        | some (key, r1) =>
          match jskip r1 with
          | ':' :: r2 =>
            match jval fuel r2 with
            | none => none
            | some (v, r3) =>
              match jskip r3 with
              | ',' :: r4 => jmembers fuel (acc ++ [(String.mk key, v)]) r4
              | c5 :: r5 =>
                if c5 = rbraceC then some (JVal.obj (acc ++ [(String.mk key, v)]), r5)
                else none
              | [] => none
          | _ => none
      else none

/-- Parse the items of a JSON array after the opening bracket. -/
def jitems (fuel : Nat) (acc : List JVal) (cs : List Char) :
    Option (JVal × List Char) :=
  match fuel with
  | 0 => none
  | fuel + 1 =>
    match jval fuel cs with
    | none => none
    | some (v, r1) =>
      match jskip r1 with
      | ',' :: r2 => jitems fuel (acc ++ [v]) r2
      | c3 :: r3 =>
        if c3 = rbrackC then some (JVal.arr (acc ++ [v]), r3)
        else none
      | [] => none

end

/-- Model of `json.loads` on the protocol's message sublanguage: parse one
value and require only trailing whitespace after it. -/
def jsonLoads (s : String) : Option JVal :=
  match jval (s.length + 1) s.data with
  | some (v, rest) => if jskip rest = [] then some v else none
  | none => none

/-! ### File classification (`play_media`, src/run.py 446-447)

`Path(filepath).suffix.lower() in ['.jpg', '.jpeg', '.png', '.bmp', '.gif',
'.webp']`.  `pathlib`'s `suffix` is the final dotted extension of the last
path component: empty when the name has no dot, starts with its only dot,
or ends in a dot. -/

/-- Characters of the reversed input up to (excluding) the first slash. -/
def takeUntilSlashRev : List Char → List Char
  | [] => []
  | c :: cs => if c = '/' then [] else c :: takeUntilSlashRev cs

/-- Last component of a path (text after the final slash). -/
def basenameOf (p : String) : String :=
  String.mk ((takeUntilSlashRev p.data.reverse).reverse)

/-- Index of the last dot of a name, as counted by `str.rfind`. -/
def rfindDot (name : List Char) : ℤ :=
  match name with
  | [] => -1
  | c :: rest =>
    let r := rfindDot rest
    if 0 ≤ r then r + 1
    else if c = '.' then 0
    else -1

/-- `pathlib.PurePath.suffix`: the substring of the name from its last dot,
when that dot is neither the first nor the last character; else empty. -/
def pathSuffix (p : String) : String :=
  let name := basenameOf p
  let i := rfindDot name.data
  if 0 < i ∧ i < (name.length : ℤ) - 1 then
    String.mk (name.data.drop i.toNat)
  else ("")

/-- ASCII lower-casing of one character, as `str.lower` does on ASCII. -/
def lowerChar (c : Char) : Char :=
  if 65 ≤ c.toNat ∧ c.toNat ≤ 90 then Char.ofNat (c.toNat + 32) else c

/-- ASCII lower-casing of a string (extensions are ASCII). -/
def lowerStr (s : String) : String := String.mk (s.data.map lowerChar)

def imageExts : List String := [".jpg", ".jpeg", ".png", ".bmp", ".gif", ".webp"]

/-- File classification used by `play_media`. -/
def isImageFile (p : String) : Bool :=
  imageExts.contains (lowerStr (pathSuffix p))

/-! ### The playback controller (`AdPlayerWindow`, src/run.py 216-554)

The controller is embedded as an event-driven state machine.  The external
world — file system, image decoder and screen geometry — is an `Env`
record of oracles.  Every handler below follows the body of the Python
method it is named after, statement by statement.  Qt thread objects are
modelled by integer ids: `alive` is the list of `VideoThread`s whose `run`
loop has not yet exited, `video_thread` the controller's current reference;
`stop()`+`wait()` removes the referenced thread from `alive`.  Two ghost
fields carry instrumentation only: `fadeOutsStarted` counts fade-out
animations actually started, and `dispCalls` records each content path
successfully handed to the display (image decoded and set, or video thread
spawned).  No handler reads the ghost fields. -/

structure Env where
  fsExists : String → Bool
  decode : String → Option (Nat × Nat)
  screenW : ℤ
  screenH : ℤ
  labelW : ℤ
  labelH : ℤ

inductive Pixmap
  | image (path : String) (w h : ℤ)
  | frame (fid : Nat) (w h : ℤ)
  deriving DecidableEq

inductive Pending
  | play (file : String) (duration : ℤ) (is_image : Bool)
  | background
  deriving DecidableEq

structure Ctrl where
  background_image : Option String
  current_file : Option String
  video_thread : Option Nat
  alive : List Nat
  nextId : Nat
  is_transitioning : Bool
  pending_command : Option Pending
  timerOn : Bool
  opacity : ℚ
  anim : Option (ℚ × ℚ)
  pixmap : Option Pixmap
  videoCache : Option ((Nat × Nat) × (ℤ × ℤ))
  fadeOutsStarted : Nat
  dispCalls : List String
  closed : Bool
  deriving DecidableEq

/-- Screen geometry with the label-size fallback used by both display paths:
`if screen_width <= 0 or screen_height <= 0:` use the label size. -/
def effScreen (env : Env) : ℤ × ℤ :=
  if env.screenW ≤ 0 ∨ env.screenH ≤ 0 then (env.labelW, env.labelH)
  else (env.screenW, env.screenH)

/-- Stop and join the current video thread if it is running
(`if self.video_thread and self.video_thread.isRunning(): stop(); wait()`). -/
def stopJoinVideo (s : Ctrl) : Ctrl :=
  match s.video_thread with
  | some t => if s.alive.contains t then { s with alive := s.alive.erase t } else s
  | none => s

/-- Create and start a fresh `VideoThread` and connect its signals
(`display_video` lines 373-376).  The ghost `dispCalls` records the
dispatched video path. -/
def spawnVideo (s : Ctrl) (video_path : String) : Ctrl :=
  { s with video_thread := some s.nextId,
           alive := s.alive ++ [s.nextId],
           nextId := s.nextId + 1,
           dispCalls := s.dispCalls ++ [video_path] }

/-- Lines 315-323 of `display_image`: the scale factor (`max` to fill the
screen for a background, `min` to fit otherwise) and the `int()`-truncated
target size `(new_width, new_height)`. -/
def scaledSize (img_width img_height : Nat) (sw sh : ℤ) (is_background : Bool) : ℤ × ℤ :=
  let scale : ℚ :=
    if is_background then max ((sw : ℚ) / img_width) ((sh : ℚ) / img_height)
    else min ((sw : ℚ) / img_width) ((sh : ℚ) / img_height)
  (pyInt (img_width * scale), pyInt (img_height * scale))

/-- Lines 315-337 of `display_image`: the target size followed by the
centred crop to exactly the screen size when a background image exceeds the
screen on either axis — the size actually displayed. -/
def displayImageSize (img_width img_height : Nat) (sw sh : ℤ) (is_background : Bool) : ℤ × ℤ :=
  let nw := (scaledSize img_width img_height sw sh is_background).1
  let nh := (scaledSize img_width img_height sw sh is_background).2
  if is_background ∧ (sw < nw ∨ sh < nh) then (sw, sh) else (nw, nh)

/-- Lines 402-405 of `update_frame`: the video path's own copy of the fit
computation (`min` scale, `int()` truncation, no crop). -/
def updateFrameSize (width height : Nat) (sw sh : ℤ) : ℤ × ℤ :=
  let scale : ℚ := min ((sw : ℚ) / width) ((sh : ℚ) / height)
  (pyInt (width * scale), pyInt (height * scale))

/-- `AdPlayerWindow.display_image` (src/run.py 289-356).  A missing file or
decode failure raises inside the `try` before any state is mutated; the
exception is caught and logged, so the call is a no-op (`decode` returns
`none`).  A zero source dimension would raise `ZeroDivisionError`, and a
non-positive resize target is rejected by Pillow — both also caught before
any mutation. -/
def display_image (env : Env) (s : Ctrl) (image_path : String) (duration : ℤ)
    (is_background : Bool) : Ctrl :=
  match env.decode image_path with
  | none => s
  | some (img_width, img_height) =>
    if img_width = 0 ∨ img_height = 0 then s
    else
      let sw := (effScreen env).1
      let sh := (effScreen env).2
      let new_width := (scaledSize img_width img_height sw sh is_background).1
      let new_height := (scaledSize img_width img_height sw sh is_background).2
      if new_width ≤ 0 ∨ new_height ≤ 0 then s
      else
        let fw := (displayImageSize img_width img_height sw sh is_background).1
        let fh := (displayImageSize img_width img_height sw sh is_background).2
        { s with pixmap := some (Pixmap.image image_path fw fh),
                 dispCalls := s.dispCalls ++ [image_path],
                 timerOn := if 0 < duration then true else s.timerOn }

/-- `AdPlayerWindow.display_video` (src/run.py 358-379): stop and join any
running video thread, clear the cached video sizing, then create and start
the new thread.  (The new thread's duration cap lives in the thread's own
loop, modelled by `runLoop`.) -/
def display_video (s : Ctrl) (video_path : String) : Ctrl :=
  spawnVideo { stopJoinVideo s with videoCache := none } video_path

/-- `QPropertyAnimation` start with given start/end values: when the
animation is already running, `start()` does nothing (the new start/end
values are recorded but the property does not jump); when stopped, the
property is set to the start value and the animation begins. -/
def animStart (s : Ctrl) (a b : ℚ) : Ctrl :=
  match s.anim with
  | some _ => { s with anim := some (a, b) }
  | none => { s with anim := some (a, b), opacity := a }

/-- `AdPlayerWindow.fade_in` (src/run.py 495-499). -/
def fade_in (s : Ctrl) : Ctrl := animStart s 0 1

/-- `AdPlayerWindow.fade_out` (src/run.py 501-515): no-op while a transition
is in flight; otherwise mark transitioning, stop and join any running video
thread, and start the 1 → 0 animation.  Ghost `fadeOutsStarted` counts the
animations actually triggered. -/
def fade_out (s : Ctrl) : Ctrl :=
  if s.is_transitioning then s
  else
    let s1 := { s with is_transitioning := true,
                       fadeOutsStarted := s.fadeOutsStarted + 1 }
    animStart (stopJoinVideo s1) 1 0

/-- `AdPlayerWindow.on_fade_finished` (src/run.py 517-535).  A pending
background request with `background_image = None` makes `display_image`
raise and no-op (caught), after which `fade_in` still runs. -/
def on_fade_finished (env : Env) (s : Ctrl) : Ctrl :=
  match s.pending_command with
  | some cmd =>
    let s1 := { s with pending_command := none }
    let s2 :=
      match cmd with
      | Pending.play f d true => fade_in (display_image env s1 f d false)
      | Pending.play f _ false => fade_in (display_video s1 f)
      | Pending.background =>
        match s1.background_image with
        | some bg => fade_in (display_image env s1 bg 0 true)
        | none => fade_in s1
    { s2 with is_transitioning := false }
  | none => { s with is_transitioning := false }

/-- `AdPlayerWindow.play_media` (src/run.py 434-462). -/
def play_media (env : Env) (s : Ctrl) (filepath : String) (duration : ℤ) : Ctrl :=
  if env.fsExists filepath = false then s
  else
    let s1 := { s with timerOn := false }
    let is_image := isImageFile filepath
    let s2 := { s1 with current_file := some filepath }
    if 0 < s2.opacity then
      fade_out { s2 with pending_command := some (Pending.play filepath duration is_image) }
    else
      fade_in (if is_image then display_image env s2 filepath duration false
               else display_video s2 filepath)

/-- Truthiness-and-existence test of the background image
(`if ... and self.background_image and os.path.exists(self.background_image)`). -/
def bgTruthyExists (env : Env) (s : Ctrl) : Bool :=
  match s.background_image with
  | some bg => (bg != "") && env.fsExists bg
  | none => false

/-- `AdPlayerWindow.stop_playback` (src/run.py 464-479). -/
def stop_playback (env : Env) (s : Ctrl) (return_to_background : Bool) : Ctrl :=
  let s1 := stopJoinVideo { s with timerOn := false }
  if return_to_background && bgTruthyExists env s1 then
    fade_out { s1 with pending_command := some Pending.background }
  else s1

/-- `AdPlayerWindow.on_media_timeout` (src/run.py 481-485): stop the timer
and nothing else. -/
def on_media_timeout (s : Ctrl) : Ctrl := { s with timerOn := false }

/-- `AdPlayerWindow.update_frame` (src/run.py 381-432): recompute the fit
scaling when the cached video resolution differs, else reuse the cache;
then set the frame pixmap.  A zero frame dimension would raise
(`ZeroDivisionError`), caught before any mutation. -/
def update_frame (env : Env) (s : Ctrl) (fid : Nat) (width height : Nat) : Ctrl :=
  if width = 0 ∨ height = 0 then s
  else
    match s.videoCache with
    | some (key, dims) =>
      if key = (width, height) then
        { s with pixmap := some (Pixmap.frame fid dims.1 dims.2) }
      else
        let nw := (updateFrameSize width height (effScreen env).1 (effScreen env).2).1
        let nh := (updateFrameSize width height (effScreen env).1 (effScreen env).2).2
        { s with videoCache := some ((width, height), (nw, nh)),
                 pixmap := some (Pixmap.frame fid nw nh) }
    | none =>
      let nw := (updateFrameSize width height (effScreen env).1 (effScreen env).2).1
      let nh := (updateFrameSize width height (effScreen env).1 (effScreen env).2).2
      { s with videoCache := some ((width, height), (nw, nh)),
               pixmap := some (Pixmap.frame fid nw nh) }

/-- `AdPlayerWindow.on_video_finished` (src/run.py 487-493): redisplay the
last decoded frame as a static hold; an empty final payload is skipped. -/
def on_video_finished (env : Env) (s : Ctrl) (last_frame : Option (Nat × Nat × Nat)) : Ctrl :=
  match last_frame with
  | some (fid, w, h) => update_frame env s fid w h
  | none => s

/-- The `duration` field of a PLAY command: `command.get('duration', 0)`;
the protocol carries whole seconds. -/
def jsonDuration (fields : List (String × JVal)) : ℤ :=
  match jget fields ("duration") with
  | some (JVal.num n) => n
  | _ => 0

/-- `AdPlayerWindow.closeEvent` (src/run.py 542-554): stop the IPC server
thread, stop and join any running video thread, accept the close. -/
def closeWindow (s : Ctrl) : Ctrl :=
  { stopJoinVideo s with closed := true }

/-- `AdPlayerWindow.handle_ipc_command` (src/run.py 273-287).  An unknown
`command` value, a non-object payload (`.get` raises, caught by the event
loop with no state mutated), a missing/falsy `file` for PLAY, or a
non-string `file` (the call fails on a non-path argument before mutating)
all leave the controller unchanged. -/
def handle_ipc_command (env : Env) (s : Ctrl) (command : JVal) : Ctrl :=
  match command with
  | JVal.obj fields =>
    match jget fields ("command") with
    | some (JVal.str cmd_type) =>
      if cmd_type = "PLAY" then
        match jget fields ("file") with
        | some (JVal.str filepath) =>
          if filepath = "" then s
          else play_media env s filepath (jsonDuration fields)
        | _ => s
      else if cmd_type = "STOP" then stop_playback env s true
      else if cmd_type = "EXIT" then closeWindow s
      else s
    | _ => s
  | _ => s

/-- `AdPlayerWindow.display_initial_background` (src/run.py 268-271). -/
def display_initial_background (env : Env) (s : Ctrl) : Ctrl :=
  match s.background_image with
  | some bg => if (bg != "") && env.fsExists bg then display_image env s bg 0 true else s
  | none => s

/-! The controller's event alphabet: decoded IPC commands, the fade
animation finishing or ticking, the media timer expiring, and the video
thread's signals and natural exit. -/

inductive Ev
  | cmd (j : JVal)
  | fadeFinished
  | animTick (v : ℚ)
  | mediaTimeout
  | frameReady (fid w h : Nat)
  | videoFinished (f : Option (Nat × Nat × Nat))
  | threadExit (t : Nat)
  | initialBg

/-- One controller step.  Guards state when an event can physically occur:
the animation must be running to finish or tick, the timer must be armed to
expire, a frame can only arrive from a live thread, and a thread exit
removes a live thread. -/
def stepEv (env : Env) (s : Ctrl) : Ev → Ctrl
  | Ev.cmd j => handle_ipc_command env s j
  | Ev.fadeFinished =>
    match s.anim with
    | some (_, e) => on_fade_finished env { s with opacity := e, anim := none }
    | none => s
  | Ev.animTick v =>
    match s.anim with
    | some (a, b) => if min a b ≤ v ∧ v ≤ max a b then { s with opacity := v } else s
    | none => s
  | Ev.mediaTimeout => if s.timerOn then on_media_timeout s else s
  | Ev.frameReady fid w h => if s.alive.isEmpty then s else update_frame env s fid w h
  | Ev.videoFinished f => on_video_finished env s f
  | Ev.threadExit t => if t ∈ s.alive then { s with alive := s.alive.erase t } else s
  | Ev.initialBg => display_initial_background env s

def runEvs (env : Env) (evs : List Ev) (s : Ctrl) : Ctrl :=
  evs.foldl (stepEv env) s

/-- `AdPlayerWindow.__init__` (src/run.py 217-266): no video thread, not
transitioning, no pending command, timer unarmed, opacity 1, no animation
running. -/
def initCtrl (bg : Option String) : Ctrl :=
  { background_image := bg, current_file := none, video_thread := none,
    alive := [], nextId := 0, is_transitioning := false, pending_command := none,
    timerOn := false, opacity := 1, anim := none, pixmap := none,
    videoCache := none, fadeOutsStarted := 0, dispCalls := [], closed := false }

/-- Controller states reachable from startup under some event sequence. -/
def Reach (env : Env) (bg : Option String) (s : Ctrl) : Prop :=
  ∃ evs : List Ev, s = runEvs env evs (initCtrl bg)

/-- One connection served by `IPCServerThread.run` (src/run.py 181-196):
empty data is skipped with no response; otherwise the payload is parsed,
and either the decoded command is dispatched and "OK" sent, or "ERROR" is
sent with the command dropped.  The connection is closed in every case. -/
def serverHandle (env : Env) (s : Ctrl) (data : String) : Ctrl × Option String :=
  if data = "" then (s, none)
  else
    match jsonLoads data with
    | some command => (handle_ipc_command env s command, some ("OK"))
    | none => (s, some ("ERROR"))

/-! ### Thread-lifecycle invariant (claim C1)

`alive` holds the producer threads whose `run` loop is still executing.
The invariant: at most the thread currently referenced by `video_thread`
is alive. -/

def AliveInv (s : Ctrl) : Prop :=
  s.alive = [] ∨ ∃ t, s.video_thread = some t ∧ s.alive = [t]

lemma AliveInv.length_le_one {s : Ctrl} (h : AliveInv s) : s.alive.length ≤ 1 := by
  rcases h with h | ⟨t, _, h⟩ <;> simp [h]

/-- Stopping and joining the referenced thread leaves no producer alive. -/
lemma stopJoin_kills {s : Ctrl} (h : AliveInv s) : (stopJoinVideo s).alive = [] := by
  rcases h with h | ⟨t, hv, ha⟩
  · unfold stopJoinVideo
    cases hvt : s.video_thread with
    | none => exact h
    | some t => simp [h]
  · unfold stopJoinVideo
    simp [hv, ha]

lemma stopJoin_aliveInv {s : Ctrl} (h : AliveInv s) : AliveInv (stopJoinVideo s) :=
  Or.inl (stopJoin_kills h)

lemma animStart_alive (s : Ctrl) (a b : ℚ) : (animStart s a b).alive = s.alive := by
  unfold animStart; cases s.anim <;> rfl

lemma animStart_vt (s : Ctrl) (a b : ℚ) :
    (animStart s a b).video_thread = s.video_thread := by
  unfold animStart; cases s.anim <;> rfl

lemma aliveInv_animStart {s : Ctrl} (a b : ℚ) (h : AliveInv s) :
    AliveInv (animStart s a b) := by
  rcases h with h | ⟨t, hv, ha⟩
  · exact Or.inl (by rw [animStart_alive]; exact h)
  · exact Or.inr ⟨t, by rw [animStart_vt]; exact hv, by rw [animStart_alive]; exact ha⟩

lemma aliveInv_fade_in {s : Ctrl} (h : AliveInv s) : AliveInv (fade_in s) :=
  aliveInv_animStart 0 1 h

lemma display_image_alive (env : Env) (s : Ctrl) (p : String) (d : ℤ) (b : Bool) :
    (display_image env s p d b).alive = s.alive
      ∧ (display_image env s p d b).video_thread = s.video_thread := by
  unfold display_image
  cases h : env.decode p with
  | none => exact ⟨rfl, rfl⟩
  | some wh =>
    obtain ⟨w, hgt⟩ := wh
    simp only []
    split_ifs <;> exact ⟨rfl, rfl⟩

lemma aliveInv_display_image (env : Env) {s : Ctrl} (p : String) (d : ℤ) (b : Bool)
    (h : AliveInv s) : AliveInv (display_image env s p d b) := by
  rcases h with h | ⟨t, hv, ha⟩
  · exact Or.inl (by rw [(display_image_alive env s p d b).1]; exact h)
  · exact Or.inr ⟨t, by rw [(display_image_alive env s p d b).2]; exact hv,
      by rw [(display_image_alive env s p d b).1]; exact ha⟩

lemma aliveInv_display_video {s : Ctrl} (p : String) (h : AliveInv s) :
    AliveInv (display_video s p) := by
  have hs : (stopJoinVideo s).alive = [] := stopJoin_kills h
  unfold display_video spawnVideo
  refine Or.inr ⟨(stopJoinVideo s).nextId, rfl, ?_⟩
  simp [hs]

lemma aliveInv_fade_out {s : Ctrl} (h : AliveInv s) : AliveInv (fade_out s) := by
  unfold fade_out
  split_ifs with ht
  · exact h
  · apply aliveInv_animStart
    apply stopJoin_aliveInv
    rcases h with h | ⟨t, hv, ha⟩
    · exact Or.inl h
    · exact Or.inr ⟨t, hv, ha⟩

lemma aliveInv_play_media (env : Env) {s : Ctrl} (f : String) (d : ℤ)
    (h : AliveInv s) : AliveInv (play_media env s f d) := by
  unfold play_media
  split_ifs with h1
  · exact h
  · simp only []
    have h2 : AliveInv { s with timerOn := false, current_file := some f } := h
    split_ifs with h3 h4
    · exact aliveInv_fade_out h2
    · exact aliveInv_fade_in (aliveInv_display_image env f d false h2)
    · exact aliveInv_fade_in (aliveInv_display_video f h2)

lemma aliveInv_stop_playback (env : Env) {s : Ctrl} (b : Bool) (h : AliveInv s) :
    AliveInv (stop_playback env s b) := by
  unfold stop_playback
  simp only []
  have h0 : AliveInv { s with timerOn := false } := h
  have h' : AliveInv (stopJoinVideo { s with timerOn := false }) := stopJoin_aliveInv h0
  split_ifs with h1
  · exact aliveInv_fade_out h'
  · exact h'

/-- The invariant depends only on the `alive` and `video_thread` fields. -/
lemma aliveInv_congr {s x : Ctrl} (h : AliveInv s) (h1 : x.alive = s.alive)
    (h2 : x.video_thread = s.video_thread) : AliveInv x := by
  rcases h with h | ⟨t, hv, ha⟩
  · exact Or.inl (by rw [h1, h])
  · exact Or.inr ⟨t, by rw [h2, hv], by rw [h1, ha]⟩

lemma aliveInv_on_fade_finished (env : Env) {s : Ctrl} (h : AliveInv s) :
    AliveInv (on_fade_finished env s) := by
  unfold on_fade_finished
  cases hp : s.pending_command with
  | none => exact aliveInv_congr h rfl rfl
  | some cmd =>
    have h1 : AliveInv { s with pending_command := none } := h
    cases cmd with
    | play f d isImg =>
      cases isImg with
      | true =>
        exact aliveInv_congr
          (aliveInv_fade_in (aliveInv_display_image env f d false h1)) rfl rfl
      | false =>
        exact aliveInv_congr (aliveInv_fade_in (aliveInv_display_video f h1)) rfl rfl
    | background =>
      cases hb : s.background_image with
      | some bg =>
        have hR : AliveInv { s with background_image := some bg, pending_command := none } :=
          aliveInv_congr h rfl rfl
        exact aliveInv_congr
          (aliveInv_fade_in (aliveInv_display_image env bg 0 true hR)) rfl rfl
      | none =>
        have hR : AliveInv { s with background_image := none, pending_command := none } :=
          aliveInv_congr h rfl rfl
        exact aliveInv_congr (aliveInv_fade_in hR) rfl rfl

lemma update_frame_alive (env : Env) (s : Ctrl) (fid w h : Nat) :
    (update_frame env s fid w h).alive = s.alive
      ∧ (update_frame env s fid w h).video_thread = s.video_thread := by
  unfold update_frame
  split_ifs with h1
  · exact ⟨rfl, rfl⟩
  · cases hc : s.videoCache with
    | none => exact ⟨rfl, rfl⟩
    | some kv =>
      obtain ⟨key, dims⟩ := kv
      simp only []
      split_ifs <;> exact ⟨rfl, rfl⟩

lemma aliveInv_update_frame (env : Env) {s : Ctrl} (fid w ht : Nat)
    (h : AliveInv s) : AliveInv (update_frame env s fid w ht) := by
  rcases h with h | ⟨t, hv, ha⟩
  · exact Or.inl (by rw [(update_frame_alive env s fid w ht).1]; exact h)
  · exact Or.inr ⟨t, by rw [(update_frame_alive env s fid w ht).2]; exact hv,
      by rw [(update_frame_alive env s fid w ht).1]; exact ha⟩

lemma aliveInv_handle (env : Env) {s : Ctrl} (j : JVal) (h : AliveInv s) :
    AliveInv (handle_ipc_command env s j) := by
  cases j with
  | obj fields =>
    simp only [handle_ipc_command]
    cases hg : jget fields ("command") with
    | none => exact h
    | some v =>
      cases v with
      | str c =>
        simp only []
        split_ifs with h1 h2 h3
        · cases hf : jget fields ("file") with
          | none => exact h
          | some fv =>
            cases fv with
            | str f =>
              simp only []
              split_ifs with h4
              · exact h
              · exact aliveInv_play_media env f _ h
            | num n => exact h
            | boolean b => exact h
            | nullV => exact h
            | arr l => exact h
            | obj l => exact h
        · exact aliveInv_stop_playback env true h
        · unfold closeWindow
          exact Or.inl (stopJoin_kills h)
        · exact h
      | num n => exact h
      | boolean b => exact h
      | nullV => exact h
      | arr l => exact h
      | obj l => exact h
  | str c => exact h
  | num n => exact h
  | boolean b => exact h
  | nullV => exact h
  | arr l => exact h

/-- Every controller event preserves the single-producer invariant. -/
lemma aliveInv_step (env : Env) {s : Ctrl} (e : Ev) (h : AliveInv s) :
    AliveInv (stepEv env s e) := by
  cases e with
  | cmd j => exact aliveInv_handle env j h
  | fadeFinished =>
    simp only [stepEv]
    cases ha : s.anim with
    | none => exact h
    | some ab =>
      obtain ⟨a, b⟩ := ab
      exact aliveInv_on_fade_finished env (aliveInv_congr h rfl rfl)
  | animTick v =>
    simp only [stepEv]
    cases ha : s.anim with
    | none => exact h
    | some ab =>
      obtain ⟨a, b⟩ := ab
      simp only []
      split_ifs with h1
      · exact aliveInv_congr h rfl rfl
      · exact h
  | mediaTimeout =>
    simp only [stepEv]
    split_ifs with h1
    · exact aliveInv_congr h rfl rfl
    · exact h
  | frameReady fid w ht =>
    simp only [stepEv]
    split_ifs with h1
    · exact h
    · exact aliveInv_update_frame env fid w ht h
  | videoFinished f =>
    simp only [stepEv, on_video_finished]
    cases f with
    | none => exact h
    | some t =>
      obtain ⟨fid, w, ht⟩ := t
      exact aliveInv_update_frame env fid w ht h
  | threadExit t =>
    simp only [stepEv]
    split_ifs with h1
    · rcases h with hnil | ⟨u, hv, hl⟩
      · rw [hnil] at h1; simp at h1
      · rw [hl] at h1
        obtain rfl := List.mem_singleton.mp h1
        exact Or.inl (by simp only []; rw [hl]; simp)
    · exact h
  | initialBg =>
    simp only [stepEv, display_initial_background]
    cases hb : s.background_image with
    | none => exact h
    | some bg =>
      simp only []
      split_ifs with h1
      · exact aliveInv_display_image env bg 0 true h
      · exact h

lemma aliveInv_runEvs (env : Env) (evs : List Ev) :
    ∀ s : Ctrl, AliveInv s → AliveInv (runEvs env evs s) := by
  induction evs with
  | nil => intro s h; exact h
  | cons e rest ih =>
    intro s h
    exact ih (stepEv env s e) (aliveInv_step env e h)

lemma aliveInv_reach (env : Env) (bg : Option String) {s : Ctrl}
    (h : Reach env bg s) : AliveInv s := by
  obtain ⟨evs, rfl⟩ := h
  exact aliveInv_runEvs env evs (initCtrl bg) (Or.inl rfl)

/-! ### Field-preservation lemmas

`stopJoinVideo` changes only `alive`; `animStart` changes only `anim` and
`opacity`. -/

@[simp] lemma stopJoin_bg (s : Ctrl) :
    (stopJoinVideo s).background_image = s.background_image := by
  unfold stopJoinVideo; cases s.video_thread with
  | none => rfl
  | some t => simp only []; split_ifs <;> rfl

@[simp] lemma stopJoin_trans (s : Ctrl) :
    (stopJoinVideo s).is_transitioning = s.is_transitioning := by
  unfold stopJoinVideo; cases s.video_thread with
  | none => rfl
  | some t => simp only []; split_ifs <;> rfl

@[simp] lemma stopJoin_fadeOuts (s : Ctrl) :
    (stopJoinVideo s).fadeOutsStarted = s.fadeOutsStarted := by
  unfold stopJoinVideo; cases s.video_thread with
  | none => rfl
  | some t => simp only []; split_ifs <;> rfl

@[simp] lemma stopJoin_nextId (s : Ctrl) : (stopJoinVideo s).nextId = s.nextId := by
  unfold stopJoinVideo; cases s.video_thread with
  | none => rfl
  | some t => simp only []; split_ifs <;> rfl

@[simp] lemma stopJoin_pending (s : Ctrl) :
    (stopJoinVideo s).pending_command = s.pending_command := by
  unfold stopJoinVideo; cases s.video_thread with
  | none => rfl
  | some t => simp only []; split_ifs <;> rfl

@[simp] lemma stopJoin_opacity (s : Ctrl) : (stopJoinVideo s).opacity = s.opacity := by
  unfold stopJoinVideo; cases s.video_thread with
  | none => rfl
  | some t => simp only []; split_ifs <;> rfl

@[simp] lemma stopJoin_anim (s : Ctrl) : (stopJoinVideo s).anim = s.anim := by
  unfold stopJoinVideo; cases s.video_thread with
  | none => rfl
  | some t => simp only []; split_ifs <;> rfl

@[simp] lemma stopJoin_timer (s : Ctrl) : (stopJoinVideo s).timerOn = s.timerOn := by
  unfold stopJoinVideo; cases s.video_thread with
  | none => rfl
  | some t => simp only []; split_ifs <;> rfl

@[simp] lemma stopJoin_pixmap (s : Ctrl) : (stopJoinVideo s).pixmap = s.pixmap := by
  unfold stopJoinVideo; cases s.video_thread with
  | none => rfl
  | some t => simp only []; split_ifs <;> rfl

@[simp] lemma stopJoin_current (s : Ctrl) :
    (stopJoinVideo s).current_file = s.current_file := by
  unfold stopJoinVideo; cases s.video_thread with
  | none => rfl
  | some t => simp only []; split_ifs <;> rfl

@[simp] lemma stopJoin_dispCalls (s : Ctrl) :
    (stopJoinVideo s).dispCalls = s.dispCalls := by
  unfold stopJoinVideo; cases s.video_thread with
  | none => rfl
  | some t => simp only []; split_ifs <;> rfl

@[simp] lemma stopJoin_vt (s : Ctrl) :
    (stopJoinVideo s).video_thread = s.video_thread := by
  unfold stopJoinVideo; cases hv : s.video_thread with
  | none => exact hv
  | some t => simp only []; split_ifs <;> first | rfl | exact hv

@[simp] lemma animStart_bg (s : Ctrl) (a b : ℚ) :
    (animStart s a b).background_image = s.background_image := by
  unfold animStart; cases s.anim <;> rfl

@[simp] lemma animStart_trans (s : Ctrl) (a b : ℚ) :
    (animStart s a b).is_transitioning = s.is_transitioning := by
  unfold animStart; cases s.anim <;> rfl

@[simp] lemma animStart_fadeOuts (s : Ctrl) (a b : ℚ) :
    (animStart s a b).fadeOutsStarted = s.fadeOutsStarted := by
  unfold animStart; cases s.anim <;> rfl

@[simp] lemma animStart_pending (s : Ctrl) (a b : ℚ) :
    (animStart s a b).pending_command = s.pending_command := by
  unfold animStart; cases s.anim <;> rfl

@[simp] lemma animStart_timer (s : Ctrl) (a b : ℚ) :
    (animStart s a b).timerOn = s.timerOn := by
  unfold animStart; cases s.anim <;> rfl

@[simp] lemma animStart_pixmap (s : Ctrl) (a b : ℚ) :
    (animStart s a b).pixmap = s.pixmap := by
  unfold animStart; cases s.anim <;> rfl

@[simp] lemma animStart_current (s : Ctrl) (a b : ℚ) :
    (animStart s a b).current_file = s.current_file := by
  unfold animStart; cases s.anim <;> rfl

@[simp] lemma animStart_dispCalls (s : Ctrl) (a b : ℚ) :
    (animStart s a b).dispCalls = s.dispCalls := by
  unfold animStart; cases s.anim <;> rfl

@[simp] lemma animStart_nextId (s : Ctrl) (a b : ℚ) :
    (animStart s a b).nextId = s.nextId := by
  unfold animStart; cases s.anim <;> rfl

@[simp] lemma animStart_alive_simp (s : Ctrl) (a b : ℚ) :
    (animStart s a b).alive = s.alive := animStart_alive s a b

@[simp] lemma animStart_vt_simp (s : Ctrl) (a b : ℚ) :
    (animStart s a b).video_thread = s.video_thread := animStart_vt s a b

/-- The anim field after a start: always the requested animation. -/
@[simp] lemma animStart_anim (s : Ctrl) (a b : ℚ) :
    (animStart s a b).anim = some (a, b) := by
  unfold animStart; cases s.anim <;> rfl

lemma stopJoin_alive_nil {s : Ctrl} (h : s.alive = []) :
    (stopJoinVideo s).alive = [] := stopJoin_kills (Or.inl h)

lemma fade_out_alive_nil {s : Ctrl} (h : s.alive = []) : (fade_out s).alive = [] := by
  unfold fade_out
  split_ifs with ht
  · exact h
  · rw [animStart_alive]
    exact stopJoin_kills (Or.inl h)

lemma stop_playback_alive (env : Env) {s : Ctrl} (rb : Bool) (h : AliveInv s) :
    (stop_playback env s rb).alive = [] := by
  unfold stop_playback
  simp only []
  have h0 : (stopJoinVideo { s with timerOn := false }).alive = [] := stopJoin_kills h
  split_ifs with h1
  · exact fade_out_alive_nil h0
  · exact h0

/-! ### Claim C1 -/

/-- There is an environment and a startup state, so the reachability
hypothesis of C1 is satisfiable. -/
def env0 : Env :=
  { fsExists := fun _ => false, decode := fun _ => none,
    screenW := 1280, screenH := 720, labelW := 1280, labelH := 720 }

/-- C1: in every reachable controller state at most one Frame Producer
thread is alive.  Moreover the stop-and-join step that `display_video`,
`fade_out` and `stop_playback` perform before proceeding leaves no producer
alive; a fade-out that proceeds (not guarded away) leaves no producer
alive; a stop leaves no producer alive; and right after `display_video`
spawns its thread, exactly that one new thread is alive. -/
theorem C1_single_session (env : Env) (bg : Option String) (s : Ctrl)
    (h : Reach env bg s) :
    s.alive.length ≤ 1
      ∧ (stopJoinVideo s).alive = []
      ∧ (s.is_transitioning = false → (fade_out s).alive = [])
      ∧ (∀ rb : Bool, (stop_playback env s rb).alive = [])
      ∧ (∀ p : String, (display_video s p).alive = [s.nextId]) := by
  have hi := aliveInv_reach env bg h
  refine ⟨hi.length_le_one, stopJoin_kills hi, ?_, fun rb => stop_playback_alive env rb hi, ?_⟩
  · intro ht
    unfold fade_out
    rw [if_neg (by simp [ht])]
    rw [animStart_alive]
    exact stopJoin_kills (aliveInv_congr hi rfl rfl)
  · intro p
    have hs : (stopJoinVideo s).alive = [] := stopJoin_kills hi
    unfold display_video spawnVideo
    simp [hs]

/-- Witness for C1 at the startup state (reachable by the empty event
sequence) in a concrete environment. -/
theorem C1_single_session_witness :
    (initCtrl none).alive.length ≤ 1
      ∧ (stopJoinVideo (initCtrl none)).alive = []
      ∧ (display_video (initCtrl none) ("clip.mp4")).alive = [(initCtrl none).nextId] :=
  ⟨(C1_single_session env0 none (initCtrl none) ⟨[], rfl⟩).1,
   (C1_single_session env0 none (initCtrl none) ⟨[], rfl⟩).2.1,
   (C1_single_session env0 none (initCtrl none) ⟨[], rfl⟩).2.2.2.2 ("clip.mp4")⟩

/-! ### Claim C6 -/

lemma bgTruthyExists_congr (env : Env) {x y : Ctrl}
    (h : x.background_image = y.background_image) :
    bgTruthyExists env x = bgTruthyExists env y := by
  unfold bgTruthyExists; rw [h]

/-- C6: while a transition (fade-out) is in flight, a new fade-out request
is a no-op; in particular two Stop commands in immediate succession from a
steady state with a usable background trigger exactly one fade-out
animation. -/
theorem C6_idempotent_fade_guard (env : Env) (s : Ctrl) :
    (s.is_transitioning = true → fade_out s = s)
  ∧ (s.is_transitioning = false → bgTruthyExists env s = true →
      (stop_playback env (stop_playback env s true) true).fadeOutsStarted
        = s.fadeOutsStarted + 1) := by
  constructor
  · intro ht
    unfold fade_out
    rw [if_pos ht]
  · intro ht hbg
    have hbg1 : ∀ x : Ctrl, x.background_image = s.background_image →
        (true && bgTruthyExists env x) = true := by
      intro x hx
      rw [Bool.true_and, bgTruthyExists_congr env hx]
      exact hbg
    have e1 : stop_playback env s true
        = fade_out { stopJoinVideo { s with timerOn := false } with
                     pending_command := some Pending.background } := by
      unfold stop_playback
      simp only []
      rw [if_pos (hbg1 _ (by simp))]
    have e2 : fade_out { stopJoinVideo { s with timerOn := false } with
          pending_command := some Pending.background }
        = animStart (stopJoinVideo
            { stopJoinVideo { s with timerOn := false } with
              pending_command := some Pending.background,
              is_transitioning := true,
              fadeOutsStarted := (stopJoinVideo { s with timerOn := false }).fadeOutsStarted + 1 }) 1 0 := by
      unfold fade_out
      rw [if_neg (by simp [ht])]
    have hA1 : (stop_playback env s true).fadeOutsStarted = s.fadeOutsStarted + 1 := by
      rw [e1, e2]; simp
    have hA2 : (stop_playback env s true).is_transitioning = true := by
      rw [e1, e2]; simp
    have hA3 : (stop_playback env s true).background_image = s.background_image := by
      rw [e1, e2]; simp
    obtain ⟨sA, hsA⟩ : ∃ sA, stop_playback env s true = sA := ⟨_, rfl⟩
    rw [hsA] at hA1 hA2 hA3 ⊢
    have e3 : stop_playback env sA true
        = fade_out { stopJoinVideo { sA with timerOn := false } with
                     pending_command := some Pending.background } := by
      unfold stop_playback
      simp only []
      rw [if_pos (hbg1 _ (by simp [hA3]))]
    have e4 : fade_out { stopJoinVideo { sA with timerOn := false } with
          pending_command := some Pending.background }
        = { stopJoinVideo { sA with timerOn := false } with
            pending_command := some Pending.background } := by
      unfold fade_out
      rw [if_pos (by simp [hA2])]
    rw [e3, e4]
    simp [hA1]

/-- Environment in which every file exists (used by witnesses that need a
present background image). -/
def envAll : Env :=
  { fsExists := fun _ => true, decode := fun _ => none,
    screenW := 1280, screenH := 720, labelW := 1280, labelH := 720 }

/-- Witness for C6: the guard at a concretely transitioning state, and the
double-Stop count from the startup state with a background configured. -/
theorem C6_idempotent_fade_guard_witness :
    fade_out { initCtrl none with is_transitioning := true }
      = { initCtrl none with is_transitioning := true }
  ∧ (stop_playback envAll
        (stop_playback envAll (initCtrl (some ("bg.png"))) true) true).fadeOutsStarted
      = (initCtrl (some ("bg.png"))).fadeOutsStarted + 1 := by
  constructor
  · exact (C6_idempotent_fade_guard envAll _).1 rfl
  · exact (C6_idempotent_fade_guard envAll _).2 rfl (by rfl)

/-! ### Claim C7 -/

/-- Events that can occur without any further IPC command and without a
queued video-thread signal: fade ticks and completion, timer expiry, frame
delivery (gated on a live thread), thread exit. -/
def quietEv : Ev → Prop := fun e =>
  match e with
  | Ev.cmd _ => False
  | Ev.videoFinished _ => False
  | Ev.initialBg => False
  | _ => True

lemma quiet_step (env : Env) (s : Ctrl) (e : Ev) (hqe : quietEv e)
    (hp : s.pending_command = none) (ha : s.alive = []) :
    (stepEv env s e).pixmap = s.pixmap
    ∧ (stepEv env s e).current_file = s.current_file
    ∧ (stepEv env s e).pending_command = none
    ∧ (stepEv env s e).alive = [] := by
  cases e with
  | cmd j => exact absurd hqe (by simp [quietEv])
  | fadeFinished =>
    simp only [stepEv]
    cases hae : s.anim with
    | none => exact ⟨rfl, rfl, hp, ha⟩
    | some ab =>
      obtain ⟨a, b⟩ := ab
      simp [on_fade_finished, hp, ha]
  | animTick v =>
    simp only [stepEv]
    cases hae : s.anim with
    | none => exact ⟨rfl, rfl, hp, ha⟩
    | some ab =>
      obtain ⟨a, b⟩ := ab
      simp only []
      split_ifs with h1
      · exact ⟨rfl, rfl, hp, ha⟩
      · exact ⟨rfl, rfl, hp, ha⟩
  | mediaTimeout =>
    simp only [stepEv]
    split_ifs with h1
    · exact ⟨rfl, rfl, hp, ha⟩
    · exact ⟨rfl, rfl, hp, ha⟩
  | frameReady fid w ht =>
    simp only [stepEv]
    rw [if_pos (by rw [ha]; rfl)]
    exact ⟨rfl, rfl, hp, ha⟩
  | videoFinished f => exact absurd hqe (by simp [quietEv])
  | threadExit t =>
    simp only [stepEv]
    split_ifs with h1
    · rw [ha] at h1; simp at h1
    · exact ⟨rfl, rfl, hp, ha⟩
  | initialBg => exact absurd hqe (by simp [quietEv])

lemma quiet_runEvs (env : Env) (evs : List Ev) :
    ∀ s : Ctrl, (∀ e ∈ evs, quietEv e) → s.pending_command = none → s.alive = [] →
      (runEvs env evs s).pixmap = s.pixmap
      ∧ (runEvs env evs s).current_file = s.current_file
      ∧ (runEvs env evs s).pending_command = none
      ∧ (runEvs env evs s).alive = [] := by
  induction evs with
  | nil => intro s _ hp ha; exact ⟨rfl, rfl, hp, ha⟩
  | cons e rest ih =>
    intro s hq hp ha
    have hstep := quiet_step env s e (hq e (by simp)) hp ha
    have hrest := ih (stepEv env s e) (fun e2 h2 => hq e2 (by simp [h2]))
      hstep.2.2.1 hstep.2.2.2
    refine ⟨?_, ?_, hrest.2.2.1, hrest.2.2.2⟩
    · rw [show runEvs env (e :: rest) s = runEvs env rest (stepEv env s e) from rfl,
          hrest.1, hstep.1]
    · rw [show runEvs env (e :: rest) s = runEvs env rest (stepEv env s e) from rfl,
          hrest.2.1, hstep.2.1]

/-- C7: the handler of a media-timer expiry only stops the timer, and from
a state with no pending transition and no live producer (the situation
after an image display), any further sequence of non-command events leaves
the displayed pixmap, the current content and the absence of a pending
transition unchanged — no transition to background or other content ever
occurs until the next explicit command. -/
theorem C7_hold_on_timeout (env : Env) (s : Ctrl) (evs : List Ev)
    (hp : s.pending_command = none) (ha : s.alive = [])
    (hq : ∀ e ∈ evs, quietEv e) :
    on_media_timeout s = { s with timerOn := false }
  ∧ (runEvs env evs (on_media_timeout s)).pixmap = s.pixmap
  ∧ (runEvs env evs (on_media_timeout s)).current_file = s.current_file
  ∧ (runEvs env evs (on_media_timeout s)).pending_command = none := by
  have h := quiet_runEvs env evs (on_media_timeout s) hq hp ha
  exact ⟨rfl, h.1, h.2.1, h.2.2.1⟩

/-- Witness for C7 at a concrete state showing an image, with a fade tick,
a fade completion and a stray timer event afterwards. -/
theorem C7_hold_on_timeout_witness :
    (runEvs env0 [Ev.animTick (1/2), Ev.fadeFinished, Ev.mediaTimeout]
        (on_media_timeout
          { initCtrl none with timerOn := true,
                               pixmap := some (Pixmap.image ("ad.png") 100 50) })).pixmap
      = some (Pixmap.image ("ad.png") 100 50) :=
  (C7_hold_on_timeout env0
    { initCtrl none with timerOn := true,
                         pixmap := some (Pixmap.image ("ad.png") 100 50) }
    [Ev.animTick (1/2), Ev.fadeFinished, Ev.mediaTimeout]
    rfl rfl (by intro e he; fin_cases he <;> simp [quietEv])).2.1

/-! ### Claim C9 -/

/-- C9: a failed image display (missing file or decode failure: the decoder
oracle yields nothing) is a no-op leaving the whole controller state — the
current content, pixmap, timer and any playback session — unchanged; and a
PLAY for a missing file is likewise a no-op. -/
theorem C9_display_error_noop (env : Env) (s : Ctrl) (p f : String) (d d2 : ℤ)
    (b : Bool) (h1 : env.decode p = none) (h2 : env.fsExists f = false) :
    display_image env s p d b = s ∧ play_media env s f d2 = s := by
  constructor
  · unfold display_image
    rw [h1]
  · unfold play_media
    rw [h2]
    simp

/-- Witness for C9 in the environment whose decoder always fails and where
no file exists. -/
theorem C9_display_error_noop_witness :
    display_image env0 (initCtrl none) ("ad.png") 2 false = initCtrl none
  ∧ play_media env0 (initCtrl none) ("clip.mp4") 5 = initCtrl none :=
  C9_display_error_noop env0 (initCtrl none) ("ad.png") ("clip.mp4") 2 5 false rfl rfl

/-! ### Claim C10 -/

/-- C10: a payload parsing to a JSON object is acknowledged "OK" whatever
its content; and the command handler leaves the controller state unchanged
both when the `command` value is none of PLAY/STOP/EXIT (or absent, or not
a string) and when a PLAY object carries no `file` field. -/
theorem C10_unknown_command_noop (env : Env) (s : Ctrl) (data : String)
    (fields : List (String × JVal))
    (hparse : jsonLoads data = some (JVal.obj fields)) :
    (serverHandle env s data).2 = some ("OK")
  ∧ ((∀ c, jget fields ("command") = some c →
        c ≠ JVal.str ("PLAY") ∧ c ≠ JVal.str ("STOP") ∧ c ≠ JVal.str ("EXIT")) →
      handle_ipc_command env s (JVal.obj fields) = s
        ∧ (serverHandle env s data).1 = s)
  ∧ (jget fields ("command") = some (JVal.str ("PLAY")) →
      jget fields ("file") = none →
      handle_ipc_command env s (JVal.obj fields) = s
        ∧ (serverHandle env s data).1 = s) := by
  have hne : data ≠ "" := by
    intro hd
    rw [hd] at hparse
    exact Option.noConfusion hparse
  have hsrv : serverHandle env s data
      = (handle_ipc_command env s (JVal.obj fields), some ("OK")) := by
    unfold serverHandle
    rw [if_neg hne, hparse]
  refine ⟨by rw [hsrv], ?_, ?_⟩
  · intro hcmd
    have hh : handle_ipc_command env s (JVal.obj fields) = s := by
      simp only [handle_ipc_command]
      cases hg : jget fields ("command") with
      | none => rfl
      | some c =>
        obtain ⟨hP, hS, hE⟩ := hcmd c hg
        cases c with
        | str c0 =>
          simp only []
          rw [if_neg (by intro hc; exact hP (by rw [hc])),
              if_neg (by intro hc; exact hS (by rw [hc])),
              if_neg (by intro hc; exact hE (by rw [hc]))]
        | num n => rfl
        | boolean b => rfl
        | nullV => rfl
        | arr l => rfl
        | obj l => rfl
    exact ⟨hh, by rw [hsrv, hh]⟩
  · intro hplay hfile
    have hh : handle_ipc_command env s (JVal.obj fields) = s := by
      simp only [handle_ipc_command]
      rw [hplay]
      simp only []
      simp [hfile]
    exact ⟨hh, by rw [hsrv, hh]⟩

/-- Witness for C10: a parsed object with an unknown command, and a PLAY
object with no file field, both acknowledged "OK" and both no-ops. -/
theorem C10_unknown_command_noop_witness :
    (serverHandle env0 (initCtrl none) ("\x7b\x22command\x22: \x22NOPE\x22\x7d")).2
      = some ("OK")
  ∧ (serverHandle env0 (initCtrl none) ("\x7b\x22command\x22: \x22NOPE\x22\x7d")).1
      = initCtrl none
  ∧ (serverHandle env0 (initCtrl none) ("\x7b\x22command\x22: \x22PLAY\x22\x7d")).1
      = initCtrl none := by
  have h1 := C10_unknown_command_noop env0 (initCtrl none)
    ("\x7b\x22command\x22: \x22NOPE\x22\x7d") [("command", JVal.str ("NOPE"))] rfl
  have h2 := C10_unknown_command_noop env0 (initCtrl none)
    ("\x7b\x22command\x22: \x22PLAY\x22\x7d") [("command", JVal.str ("PLAY"))] rfl
  refine ⟨h1.1, ?_, ?_⟩
  · refine (h1.2.1 ?_).2
    intro c hc
    have hcc : JVal.str ("NOPE") = c := by
      simpa [jget] using hc
    rw [← hcc]
    refine ⟨by intro h; injection h with h; exact absurd h (by decide),
            by intro h; injection h with h; exact absurd h (by decide),
            by intro h; injection h with h; exact absurd h (by decide)⟩
  · exact (h2.2.2 (by rfl) (by rfl)).2

/-! ### Claim C5 -/

/-- C5 counterexample: an empty payload (a connection closed without
sending data) is not parseable, yet the server sends no reply at all —
`if data:` skips both the "OK" and the "ERROR" paths — contradicting the
claim that every non-parseable payload is answered "ERROR". -/
theorem C5_counterexample :
    jsonLoads ("") = none
  ∧ (serverHandle env0 (initCtrl none) ("")).2 = none
  ∧ ¬ (serverHandle env0 (initCtrl none) ("")).2 = some ("ERROR") := by
  refine ⟨rfl, rfl, ?_⟩
  intro h
  rw [show (serverHandle env0 (initCtrl none) ("")).2 = none from rfl] at h
  exact Option.noConfusion h

/-- C5 (amended): for every nonempty payload, a parse success is dispatched
and acknowledged "OK", and a parse failure is answered "ERROR" with the
command dropped and the controller state unchanged (the connection is
closed in all cases); an empty read gets no reply and also leaves the state
unchanged. -/
theorem C5_malformed_error (env : Env) (s : Ctrl) (data : String) :
    (∀ j, data ≠ "" → jsonLoads data = some j →
      serverHandle env s data = (handle_ipc_command env s j, some ("OK")))
  ∧ (data ≠ "" → jsonLoads data = none →
      serverHandle env s data = (s, some ("ERROR")))
  ∧ (data = "" → serverHandle env s data = (s, none)) := by
  refine ⟨?_, ?_, ?_⟩
  · intro j hne hj
    unfold serverHandle
    rw [if_neg hne, hj]
  · intro hne hj
    unfold serverHandle
    rw [if_neg hne, hj]
  · intro he
    unfold serverHandle
    rw [if_pos he]

/-- Witness for C5 at concrete payloads: a malformed word is answered
"ERROR" with the state unchanged, and a well-formed STOP is acknowledged
"OK". -/
theorem C5_malformed_error_witness :
    serverHandle env0 (initCtrl none) ("notjson") = (initCtrl none, some ("ERROR"))
  ∧ (serverHandle env0 (initCtrl none) ("\x7b\x22command\x22: \x22STOP\x22\x7d")).2
      = some ("OK") := by
  constructor
  · exact (C5_malformed_error env0 (initCtrl none) ("notjson")).2.1
      (by decide) rfl
  · rw [(C5_malformed_error env0 (initCtrl none)
      ("\x7b\x22command\x22: \x22STOP\x22\x7d")).1
      (JVal.obj [("command", JVal.str ("STOP"))])
      (by decide) rfl]

/-! ### Claim C4 -/

inductive ScaleMode
  | Fit
  | Fill
  deriving DecidableEq

/-- Modelled from the spec: §4.5 Scaling/Compositing, the pure function
`fit(imageSize, screenSize, mode) -> (targetSize, cropRect?)`, with the
spec's round-to-nearest amended to the `int()` truncation the code
performs.  `Fit`: scale = min(W/w, H/h), no crop.  `Fill`: scale =
max(W/w, H/h), with a centred crop rectangle when the scaled size exceeds
the screen on either axis. -/
def fit (w h : Nat) (sw sh : ℤ) (mode : ScaleMode) :
    (ℤ × ℤ) × Option (ℤ × ℤ × ℤ × ℤ) :=
  let scale : ℚ :=
    match mode with
    | ScaleMode.Fit => min ((sw : ℚ) / w) ((sh : ℚ) / h)
    | ScaleMode.Fill => max ((sw : ℚ) / w) ((sh : ℚ) / h)
  let ow : ℤ := pyInt (w * scale)
  let oh : ℤ := pyInt (h * scale)
  match mode with
  | ScaleMode.Fit => ((ow, oh), none)
  | ScaleMode.Fill =>
    if sw < ow ∨ sh < oh then
      ((ow, oh), some ((ow - sw) / 2, (oh - sh) / 2, (ow - sw) / 2 + sw, (oh - sh) / 2 + sh))
    else ((ow, oh), none)

lemma le_pyInt {q : ℚ} {n : ℤ} (hn : 0 ≤ n) (h : (n : ℚ) ≤ q) : n ≤ pyInt q := by
  unfold pyInt
  rw [if_pos (le_trans (by exact_mod_cast hn) h)]
  exact Int.le_floor.mpr h

/-- In Fill mode the truncated scaled size covers the screen on both axes. -/
lemma fill_covers (w h : Nat) (sw sh : ℤ) (hw : 0 < w) (hh : 0 < h)
    (hsw : 0 ≤ sw) (hsh : 0 ≤ sh) :
    sw ≤ (scaledSize w h sw sh true).1 ∧ sh ≤ (scaledSize w h sw sh true).2 := by
  have hw0 : (0 : ℚ) < (w : ℚ) := by exact_mod_cast hw
  have hh0 : (0 : ℚ) < (h : ℚ) := by exact_mod_cast hh
  have e : scaledSize w h sw sh true
      = (pyInt (w * max ((sw : ℚ) / w) ((sh : ℚ) / h)),
         pyInt (h * max ((sw : ℚ) / w) ((sh : ℚ) / h))) := by
    simp [scaledSize]
  rw [e]
  constructor
  · apply le_pyInt hsw
    calc (sw : ℚ) = w * ((sw : ℚ) / w) := by field_simp
      _ ≤ w * max ((sw : ℚ) / w) ((sh : ℚ) / h) :=
          mul_le_mul_of_nonneg_left (le_max_left _ _) (le_of_lt hw0)
  · apply le_pyInt hsh
    calc (sh : ℚ) = h * ((sh : ℚ) / h) := by field_simp
      _ ≤ h * max ((sw : ℚ) / w) ((sh : ℚ) / h) :=
          mul_le_mul_of_nonneg_left (le_max_right _ _) (le_of_lt hh0)

/-- C4 counterexample: at source size (3,2) and screen (4,4) in Fit mode,
the height the code computes is `int(2 * 4/3) = 2`, while the claimed
`round(h * scale)` is 3 — the code truncates, it does not round. -/
theorem C4_counterexample :
    (scaledSize 3 2 4 4 false).2 = 2
  ∧ round ((2 : ℚ) * min ((4 : ℚ) / 3) ((4 : ℚ) / 2)) = 3
  ∧ (2 : ℤ) ≠ 3 := by
  refine ⟨?_, ?_, by decide⟩
  · norm_num [scaledSize, pyInt]
  · norm_num [round_eq]

/-- C4 (amended): with positive source and screen sizes, the scaling
computation is: Fit mode uses scale = min(W/w, H/h) and outputs the
`int()`-truncated (not rounded) scaled size with no crop; Fill mode uses
scale = max(W/w, H/h), covers the screen on both axes, and displays a
centred crop of exactly (W,H) whenever the scaled size exceeds the screen
(and exactly (W,H) in every case); the image path and the video frame path
compute the same Fit sizing; and fit((1920,1080),(1280,720),Fit) =
(1280,720) exactly. -/
theorem C4_scaling (w h : Nat) (sw sh : ℤ) (hw : 0 < w) (hh : 0 < h)
    (hsw : 0 < sw) (hsh : 0 < sh) :
    (displayImageSize w h sw sh false = (fit w h sw sh ScaleMode.Fit).1
      ∧ (fit w h sw sh ScaleMode.Fit).2 = none)
  ∧ updateFrameSize w h sw sh = (fit w h sw sh ScaleMode.Fit).1
  ∧ (sw ≤ (fit w h sw sh ScaleMode.Fill).1.1 ∧ sh ≤ (fit w h sw sh ScaleMode.Fill).1.2)
  ∧ displayImageSize w h sw sh true = (sw, sh)
  ∧ (∀ l t r b : ℤ, (fit w h sw sh ScaleMode.Fill).2 = some (l, t, r, b) →
      r - l = sw ∧ b - t = sh)
  ∧ fit 1920 1080 1280 720 ScaleMode.Fit = ((1280, 720), none) := by
  have hcov := fill_covers w h sw sh hw hh (le_of_lt hsw) (le_of_lt hsh)
  have hfill : (fit w h sw sh ScaleMode.Fill).1 = scaledSize w h sw sh true := by
    unfold fit scaledSize
    simp only []
    split_ifs <;> rfl
  refine ⟨⟨?_, rfl⟩, ?_, ?_, ?_, ?_, ?_⟩
  · simp [displayImageSize, scaledSize, fit]
  · simp [updateFrameSize, scaledSize, fit]
  · rw [hfill]; exact hcov
  · unfold displayImageSize
    simp only []
    split_ifs with hc
    · rfl
    · rw [not_and] at hc
      have hc2 := hc (by trivial)
      push_neg at hc2
      exact Prod.ext (le_antisymm hc2.1 hcov.1) (le_antisymm hc2.2 hcov.2)
  · intro l t r b hrect
    unfold fit at hrect
    simp only [] at hrect
    split_ifs at hrect with hc
    · simp only [Option.some.injEq, Prod.mk.injEq] at hrect
      obtain ⟨h1, h2, h3, h4⟩ := hrect
      constructor
      · rw [← h3, ← h1]; ring
      · rw [← h4, ← h2]; ring
  · have e1 : min ((1280 : ℚ) / 1920) ((720 : ℚ) / 1080) = 2/3 := by norm_num
    unfold fit
    simp only [e1]
    norm_num [pyInt]

/-- Witness for C4 at the spec's P4 instances: fit((1920,1080),(1280,720))
is exactly (1280,720), and a (800,600) background on a (1280,720) screen
covers the screen and displays exactly (1280,720). -/
theorem C4_scaling_witness :
    fit 1920 1080 1280 720 ScaleMode.Fit = ((1280, 720), none)
  ∧ displayImageSize 800 600 1280 720 true = (1280, 720)
  ∧ (1280 : ℤ) ≤ (fit 800 600 1280 720 ScaleMode.Fill).1.1
  ∧ (720 : ℤ) ≤ (fit 800 600 1280 720 ScaleMode.Fill).1.2 := by
  have h1 := C4_scaling 1920 1080 1280 720 (by norm_num) (by norm_num)
    (by norm_num) (by norm_num)
  have h2 := C4_scaling 800 600 1280 720 (by norm_num) (by norm_num)
    (by norm_num) (by norm_num)
  exact ⟨h1.2.2.2.2.2, h2.2.2.2.1, h2.2.2.1.1, h2.2.2.1.2⟩

/-! ### Claim C2 -/

/-- The PLAY command object of the protocol. -/
def playCmd (f : String) (d : ℤ) : JVal :=
  JVal.obj [("command", JVal.str ("PLAY")), ("file", JVal.str f), ("duration", JVal.num d)]

lemma handle_playCmd (env : Env) (s : Ctrl) (f : String) (d : ℤ) (hf : f ≠ "") :
    handle_ipc_command env s (playCmd f d) = play_media env s f d := by
  simp only [handle_ipc_command, playCmd]
  rw [show jget [("command", JVal.str ("PLAY")), ("file", JVal.str f),
        ("duration", JVal.num d)] ("command") = some (JVal.str ("PLAY")) from rfl]
  simp only []
  simp only [if_true]
  rw [show jget [("command", JVal.str ("PLAY")), ("file", JVal.str f),
        ("duration", JVal.num d)] ("file") = some (JVal.str f) from rfl]
  simp only []
  rw [if_neg hf]
  rw [show jsonDuration [("command", JVal.str ("PLAY")), ("file", JVal.str f),
        ("duration", JVal.num d)] = d from rfl]

lemma animStart_opacity_none {s : Ctrl} (h : s.anim = none) (a b : ℚ) :
    (animStart s a b).opacity = a := by
  unfold animStart; rw [h]

lemma display_image_pending (env : Env) (s : Ctrl) (p : String) (d : ℤ) (b : Bool) :
    (display_image env s p d b).pending_command = s.pending_command := by
  unfold display_image
  cases h : env.decode p with
  | none => rfl
  | some wh =>
    obtain ⟨w2, h2⟩ := wh
    simp only []
    split_ifs <;> rfl

lemma display_video_dispCalls (s : Ctrl) (p : String) :
    (display_video s p).dispCalls = s.dispCalls ++ [p] := by
  unfold display_video spawnVideo
  simp

lemma display_video_pending (s : Ctrl) (p : String) :
    (display_video s p).pending_command = s.pending_command := by
  unfold display_video spawnVideo
  simp

/-- `play_media` from a steady visible state records the request as pending
and starts the fade-out (nothing is displayed yet). -/
lemma play_media_steady (env : Env) (s : Ctrl) (f : String) (d : ℤ)
    (hex : env.fsExists f = true) (hop : 0 < s.opacity)
    (ht : s.is_transitioning = false) (han : s.anim = none) :
    (play_media env s f d).pending_command = some (Pending.play f d (isImageFile f))
    ∧ (play_media env s f d).anim = some (1, 0)
    ∧ (play_media env s f d).opacity = 1
    ∧ (play_media env s f d).is_transitioning = true
    ∧ (play_media env s f d).dispCalls = s.dispCalls := by
  unfold play_media
  rw [if_neg (by rw [hex]; simp)]
  simp only []
  rw [if_pos hop]
  unfold fade_out
  rw [if_neg (by simp [ht])]
  refine ⟨by simp, by simp, ?_, by simp, by simp⟩
  exact animStart_opacity_none (by simp [han]) 1 0

/-- `play_media` while a fade-out is already in flight only overwrites the
pending request (last write wins): the fade-out guard makes the new
`fade_out` call a no-op. -/
lemma play_media_inflight (env : Env) (s : Ctrl) (f : String) (d : ℤ)
    (hex : env.fsExists f = true) (hop : 0 < s.opacity)
    (ht : s.is_transitioning = true) :
    play_media env s f d
      = { s with timerOn := false, current_file := some f,
                 pending_command := some (Pending.play f d (isImageFile f)) } := by
  unfold play_media
  rw [if_neg (by rw [hex]; simp)]
  simp only []
  rw [if_pos hop]
  unfold fade_out
  rw [if_pos (by simp [ht])]

/-- Animation ticks during the fade-out change only the opacity, which
stays positive while the ticks do. -/
lemma ticks_preserve (env : Env) (ticks : List ℚ) :
    ∀ s : Ctrl, s.anim = some (1, 0) → 0 < s.opacity →
      (∀ v ∈ ticks, 0 < v ∧ v ≤ 1) →
      (runEvs env (ticks.map Ev.animTick) s).pending_command = s.pending_command
      ∧ (runEvs env (ticks.map Ev.animTick) s).anim = s.anim
      ∧ (runEvs env (ticks.map Ev.animTick) s).is_transitioning = s.is_transitioning
      ∧ (runEvs env (ticks.map Ev.animTick) s).dispCalls = s.dispCalls
      ∧ 0 < (runEvs env (ticks.map Ev.animTick) s).opacity := by
  induction ticks with
  | nil => intro s _ hop _; exact ⟨rfl, rfl, rfl, rfl, hop⟩
  | cons v rest ih =>
    intro s han hop hts
    have hv := hts v (by simp)
    have hstep : stepEv env s (Ev.animTick v) = { s with opacity := v } := by
      simp only [stepEv]
      rw [han]
      simp only []
      rw [if_pos]
      constructor
      · rw [min_comm]
        simp [le_of_lt hv.1]
      · simp [hv.2]
    have e : runEvs env ((v :: rest).map Ev.animTick) s
        = runEvs env (rest.map Ev.animTick) (stepEv env s (Ev.animTick v)) := rfl
    rw [e, hstep]
    exact ih { s with opacity := v } (by simp [han]) (by simpa using hv.1)
      (fun u hu => hts u (by simp [hu]))

/-- Completion of the fade-out applies the pending play: the content is
displayed (dispatch recorded exactly once) and the pending slot cleared. -/
lemma fade_finished_applies (env : Env) (s3 : Ctrl) (f : String) (d : ℤ)
    (han : s3.anim = some (1, 0))
    (hpend : s3.pending_command = some (Pending.play f d (isImageFile f)))
    (hdisp : ∀ x : Ctrl, (display_image env x f d false).dispCalls = x.dispCalls ++ [f]) :
    (stepEv env s3 Ev.fadeFinished).dispCalls = s3.dispCalls ++ [f]
    ∧ (stepEv env s3 Ev.fadeFinished).pending_command = none := by
  simp only [stepEv]
  rw [han]
  simp only []
  unfold on_fade_finished
  rw [show ({ s3 with opacity := 0, anim := none } : Ctrl).pending_command
        = s3.pending_command from rfl, hpend]
  simp only []
  cases himg : isImageFile f with
  | true =>
    constructor
    · rw [show ∀ x : Ctrl, ({ x with is_transitioning := false } : Ctrl).dispCalls
            = x.dispCalls from fun _ => rfl]
      unfold fade_in
      rw [animStart_dispCalls]
      exact hdisp _
    · rw [show ∀ x : Ctrl, ({ x with is_transitioning := false } : Ctrl).pending_command
            = x.pending_command from fun _ => rfl]
      unfold fade_in
      rw [animStart_pending, display_image_pending]
  | false =>
    constructor
    · rw [show ∀ x : Ctrl, ({ x with is_transitioning := false } : Ctrl).dispCalls
            = x.dispCalls from fun _ => rfl]
      unfold fade_in
      rw [animStart_dispCalls, display_video_dispCalls]
    · rw [show ∀ x : Ctrl, ({ x with is_transitioning := false } : Ctrl).pending_command
            = x.pending_command from fun _ => rfl]
      unfold fade_in
      rw [animStart_pending, display_video_pending]

/-- C2: Play(A) from a steady visible state starts a fade-out with A
pending; a Play(B) arriving while that fade-out is still in flight (any
sequence of opacity ticks strictly between 0 and 1 may have elapsed)
overwrites the single pending request — last write wins, nothing queues —
and after the fade completes exactly B is dispatched to the display: the
dispatch trace grows by [B] alone, so A is never displayed. -/
theorem C2_pending_overwrite (env : Env) (s : Ctrl) (A B : String) (dA dB : ℤ)
    (ticks : List ℚ)
    (hA : env.fsExists A = true) (hA0 : A ≠ "")
    (hB : env.fsExists B = true) (hB0 : B ≠ "")
    (h1 : s.is_transitioning = false) (h2 : s.anim = none) (h3 : 0 < s.opacity)
    (hticks : ∀ v ∈ ticks, 0 < v ∧ v ≤ 1)
    (hBdisp : ∀ x : Ctrl,
      (display_image env x B dB false).dispCalls = x.dispCalls ++ [B]) :
    (stepEv env s (Ev.cmd (playCmd A dA))).pending_command
        = some (Pending.play A dA (isImageFile A))
    ∧ (stepEv env (runEvs env (ticks.map Ev.animTick)
          (stepEv env s (Ev.cmd (playCmd A dA)))) (Ev.cmd (playCmd B dB))).pending_command
        = some (Pending.play B dB (isImageFile B))
    ∧ (stepEv env (stepEv env (runEvs env (ticks.map Ev.animTick)
          (stepEv env s (Ev.cmd (playCmd A dA)))) (Ev.cmd (playCmd B dB)))
        Ev.fadeFinished).dispCalls = s.dispCalls ++ [B]
    ∧ (stepEv env (stepEv env (runEvs env (ticks.map Ev.animTick)
          (stepEv env s (Ev.cmd (playCmd A dA)))) (Ev.cmd (playCmd B dB)))
        Ev.fadeFinished).pending_command = none := by
  have eA : stepEv env s (Ev.cmd (playCmd A dA)) = play_media env s A dA :=
    handle_playCmd env s A dA hA0
  have hAfacts := play_media_steady env s A dA hA h3 h1 h2
  have hM := ticks_preserve env ticks (play_media env s A dA)
    hAfacts.2.1 (by rw [hAfacts.2.2.1]; norm_num) hticks
  obtain ⟨hM1, hM2, hM3, hM4, hM5⟩ := hM
  have eB : stepEv env (runEvs env (ticks.map Ev.animTick) (play_media env s A dA))
      (Ev.cmd (playCmd B dB))
      = play_media env (runEvs env (ticks.map Ev.animTick) (play_media env s A dA)) B dB :=
    handle_playCmd env _ B dB hB0
  have eB2 := play_media_inflight env
    (runEvs env (ticks.map Ev.animTick) (play_media env s A dA)) B dB hB hM5
    (by rw [hM3, hAfacts.2.2.2.1])
  have hBanim : (play_media env (runEvs env (ticks.map Ev.animTick)
      (play_media env s A dA)) B dB).anim = some (1, 0) := by
    rw [eB2]
    show (runEvs env (ticks.map Ev.animTick) (play_media env s A dA)).anim = some (1, 0)
    rw [hM2, hAfacts.2.1]
  have hBpend : (play_media env (runEvs env (ticks.map Ev.animTick)
      (play_media env s A dA)) B dB).pending_command
      = some (Pending.play B dB (isImageFile B)) := by
    rw [eB2]
  have hBdc : (play_media env (runEvs env (ticks.map Ev.animTick)
      (play_media env s A dA)) B dB).dispCalls = s.dispCalls := by
    rw [eB2]
    show (runEvs env (ticks.map Ev.animTick) (play_media env s A dA)).dispCalls = s.dispCalls
    rw [hM4, hAfacts.2.2.2.2]
  have hfin := fade_finished_applies env _ B dB hBanim hBpend hBdisp
  refine ⟨?_, ?_, ?_, ?_⟩
  · rw [eA]; exact hAfacts.1
  · rw [eA, eB]; exact hBpend
  · rw [eA, eB, hfin.1, hBdc]
  · rw [eA, eB]; exact hfin.2

/-- Environment whose files all exist and decode to a 100 × 50 image. -/
def envDec : Env :=
  { fsExists := fun _ => true, decode := fun _ => some (100, 50),
    screenW := 1280, screenH := 720, labelW := 1280, labelH := 720 }

/-- Witness for C2 from the startup state: Play(a.mp4) then Play(b.png)
during the fade-out, with two intermediate opacity ticks; only b.png is
ever dispatched. -/
theorem C2_pending_overwrite_witness :
    (stepEv envDec (stepEv envDec (runEvs envDec ([(9 : ℚ)/10, 1/2].map Ev.animTick)
        (stepEv envDec (initCtrl none) (Ev.cmd (playCmd ("a.mp4") 5))))
        (Ev.cmd (playCmd ("b.png") 7))) Ev.fadeFinished).dispCalls
      = (initCtrl none).dispCalls ++ [("b.png")] := by
  have h := C2_pending_overwrite envDec (initCtrl none) ("a.mp4") ("b.png") 5 7
    [(9 : ℚ)/10, 1/2] rfl (by decide) rfl (by decide) rfl rfl (by norm_num [initCtrl])
    (by
      intro v hv
      simp only [List.mem_cons, List.not_mem_nil, or_false] at hv
      rcases hv with rfl | rfl <;> norm_num)
    (by
      intro x
      norm_num [display_image, envDec, effScreen, scaledSize, pyInt])
  exact h.2.2.1

end AdPlayer
